import Mathlib

/-!
Verification development for two cores of the spacedrive repository:
the encrypted-file header codec v1 (crates/crypto/src/header/schema/file_001.rs)
and the iOS filesystem watcher event coalescer
(core/src/location/manager/watcher/ios.rs).

Machine integers and byte blobs are modelled as Nat; fallible operations
return Except; external cryptographic primitives and the filesystem /
database environment are passed in as explicit oracle functions.
-/

namespace Spacedrive

namespace Crypto

/-- Modelled from the spec: opaque salt value (the concrete byte width of
the missing types module is irrelevant to the claims). -/
structure Salt where
  val : Nat
deriving DecidableEq

/-- Modelled from the spec: opaque nonce value. -/
structure Nonce where
  val : Nat
deriving DecidableEq

/-- Modelled from the spec: opaque AEAD-encrypted master-key blob. -/
structure EncryptedKey where
  val : Nat
deriving DecidableEq

/-- Modelled from the spec: opaque symmetric key value. -/
structure Key where
  val : Nat
deriving DecidableEq

/-- Modelled from the spec: opaque associated-data blob. -/
structure Aad where
  val : Nat
deriving DecidableEq

/-- Password-hashing parameter presets (types module, modelled from the spec). -/
inductive Params
  | Standard
  | Hardened
  | Paranoid
deriving DecidableEq

/-- Password-hashing algorithm identifier plus parameters. -/
inductive HashingAlgorithm
  | Argon2id (p : Params)
  | BalloonBlake3 (p : Params)
deriving DecidableEq

/-- AEAD algorithm identifier. -/
inductive Algorithm
  | XChaCha20Poly1305
  | Aes256Gcm
deriving DecidableEq

/-- Error kinds of the crypto crate used by file_001.rs. -/
inductive Error
  | TooManyKeyslots
  | TooManyObjects
  | NoKeyslots
  | IncorrectPassword
  | Index
  | PasswordHash
  | Other (n : Nat)
deriving DecidableEq

def KEYSLOT_LIMIT : Nat := 2

def OBJECT_LIMIT : Nat := 2

/-- Keyslot001 from file_001.rs: one wrapping of the master key. -/
structure Keyslot001 where
  enabled : Bool
  hashing_algorithm : HashingAlgorithm
  salt : Salt
  content_salt : Salt
  master_key : EncryptedKey
  nonce : Nonce
deriving DecidableEq

/-- Fresh random values consumed by one call to Keyslot001::disabled
(Salt::generate, generate_bytes, Nonce::generate_xchacha are external
randomness; modelled as explicit entropy input). -/
structure SlotEntropy where
  content_salt : Salt
  master_key : EncryptedKey
  salt : Salt
  nonce : Nonce
deriving DecidableEq

/-- Keyslot001::disabled: synthetic padding slot, enabled = false, random fields. -/
def Keyslot001.disabled (e : SlotEntropy) : Keyslot001 :=
  { enabled := false
    content_salt := e.content_salt
    hashing_algorithm := .Argon2id .Standard
    master_key := e.master_key
    salt := e.salt
    nonce := e.nonce }

/-- KeyslotArea001: ordered sequence of keyslots, bounded by KEYSLOT_LIMIT. -/
structure KeyslotArea001 where
  slots : List Keyslot001
deriving DecidableEq

/-- TryFrom Vec of Keyslot001 for KeyslotArea001: length bound check. -/
def KeyslotArea001.tryFrom (l : List Keyslot001) : Except Error KeyslotArea001 :=
  if l.length > KEYSLOT_LIMIT then .error .TooManyKeyslots else .ok ⟨l⟩

/-- Encode for KeyslotArea001 at slot granularity: real slots in order, then
KEYSLOT_LIMIT - len disabled padding slots; error if over the limit.
The entropy stream feeds Keyslot001::disabled. The byte-level framing done
by the bincode derive (external crate) is abstracted: each list element is
one serialized slot on the wire. -/
def KeyslotArea001.encode (entropy : Nat → SlotEntropy) (a : KeyslotArea001) :
    Except Error (List Keyslot001) :=
  if a.slots.length > KEYSLOT_LIMIT then .error .TooManyKeyslots
  else .ok (a.slots ++
    (List.range (KEYSLOT_LIMIT - a.slots.length)).map (fun i => Keyslot001.disabled (entropy i)))

/-- Decode for KeyslotArea001: read exactly KEYSLOT_LIMIT slots from the
wire, keep only the enabled ones, then enforce the length bound via tryFrom. -/
def KeyslotArea001.decode (wire : List Keyslot001) : Except Error KeyslotArea001 :=
  KeyslotArea001.tryFrom ((wire.take KEYSLOT_LIMIT).filter (fun k => k.enabled))

/-- FileHeaderObject001: encrypted side-channel datum. -/
structure FileHeaderObject001 where
  object_type : Nat
  nonce : Nonce
  data : List Nat
deriving DecidableEq

/-- FileHeader001 from file_001.rs. -/
structure FileHeader001 where
  aad : Aad
  algorithm : Algorithm
  nonce : Nonce
  keyslots : KeyslotArea001
  objects : List FileHeaderObject001
deriving DecidableEq

/-- Modelled from the spec: Keyslot001::decrypt derives a KEK from
(key, slot.salt) and AEAD-decrypts slot.master_key; the AEAD primitive is
external, so the whole slot decryption is an oracle: some key on success,
none on failure. -/
def DecOracle : Type := Key → Keyslot001 → Option Key

/-- Inner loop of decrypt_master_key: try one hashed key against every slot. -/
def tryKeySlots (dec : DecOracle) (k : Key) (slots : List Keyslot001) : Option Key :=
  slots.findSome? (fun v => dec k v)

/-- Outer loop of decrypt_master_key over the supplied keys. -/
def tryAllKeys (dec : DecOracle) (slots : List Keyslot001) : List Key → Except Error Key
  | [] => .error .IncorrectPassword
  | k :: ks =>
    match tryKeySlots dec k slots with
    | some key => .ok key
    | none => tryAllKeys dec slots ks

/-- FileHeader001::decrypt_master_key from file_001.rs. -/
def decrypt_master_key (dec : DecOracle) (h : FileHeader001) (keys : List Key) :
    Except Error Key :=
  if h.keyslots.slots.isEmpty then .error .NoKeyslots
  else tryAllKeys dec h.keyslots.slots keys

/-- Key-major product of keys and slots (outer loop over keys, inner over slots). -/
def keyPairs (keys : List Key) (slots : List Keyslot001) : List (Key × Keyslot001) :=
  keys.flatMap (fun k => slots.map (fun s => (k, s)))

/-- Statement of decrypt_master_key in the spec's words: no keyslots fails
NoKeyslots; otherwise every (hashed_key, keyslot) pair is tried in key-major
order, the first successful decrypt is returned, and IncorrectPassword is
returned only after all pairs failed. -/
def decrypt_master_key_spec (dec : DecOracle) (h : FileHeader001) (keys : List Key) :
    Except Error Key :=
  if h.keyslots.slots.isEmpty then .error .NoKeyslots
  else
    match (keyPairs keys h.keyslots.slots).findSome? (fun p => dec p.1 p.2) with
    | some key => .ok key
    | none => .error .IncorrectPassword

/-- Modelled from the spec: a password as an opaque byte sequence. -/
def Password : Type := List Nat

/-- Modelled from the spec: the password-hashing KDF
HashingAlgorithm::hash(password, content_salt, None) is an external
primitive; an oracle returning ok key or a hashing failure. -/
def HashOracle : Type := HashingAlgorithm → Password → Salt → Except Unit Key

/-- Loop body of decrypt_master_key_with_password over the keyslots: hash
the password with the slot's own parameters (a hashing failure is mapped to
PasswordHash and propagated by the question-mark operator), then try to
decrypt the slot, returning on first success. -/
def tryPasswordSlots (hash : HashOracle) (dec : DecOracle) (pw : Password) :
    List Keyslot001 → Except Error Key
  | [] => .error .IncorrectPassword
  | v :: vs =>
    match hash v.hashing_algorithm pw v.content_salt with
    | .error _ => .error .PasswordHash
    | .ok key =>
      match dec key v with
      | some k => .ok k
      | none => tryPasswordSlots hash dec pw vs

/-- FileHeader001::decrypt_master_key_with_password from file_001.rs. -/
def decrypt_master_key_with_password (hash : HashOracle) (dec : DecOracle)
    (h : FileHeader001) (pw : Password) : Except Error Key :=
  if h.keyslots.slots.isEmpty then .error .NoKeyslots
  else tryPasswordSlots hash dec pw h.keyslots.slots

/-- Modelled from the spec: Keyslot001::new generates a nonce and a salt and
AEAD-encrypts the master key; nonce generation and encryption are external
and fallible, so slot construction is an oracle. -/
def NewSlotOracle : Type :=
  Algorithm → HashingAlgorithm → Salt → Key → Key → Except Error Keyslot001

/-- FileHeader001::add_keyslot from file_001.rs, with the mutable receiver
made explicit: returns the new header state and the optional error. -/
def add_keyslot (newSlot : NewSlotOracle) (h : FileHeader001)
    (hashing_algorithm : HashingAlgorithm) (content_salt : Salt)
    (hashed_key : Key) (master_key : Key) : FileHeader001 × Option Error :=
  if h.keyslots.slots.length + 1 > KEYSLOT_LIMIT then (h, some .TooManyKeyslots)
  else
    match newSlot h.algorithm hashing_algorithm content_salt hashed_key master_key with
    | .error e => (h, some e)
    | .ok s => ({ h with keyslots := ⟨h.keyslots.slots ++ [s]⟩ }, none)

end Crypto

namespace Watcher

/-- Path components are opaque OS strings, modelled as Nat; a path is its
component list (Path::new("") is the empty list). -/
abbrev Component : Type := Nat

abbrev FsPath : Type := List Component

abbrev INode : Type := Nat

/-- Monotonic instants in milliseconds. -/
abbrev Instant : Type := Nat

def HUNDRED_MILLIS : Nat := 100

def ONE_SECOND : Nat := 1000

/-- Path::parent: none for the empty path, otherwise the path without its
last component (the parent of a single-component relative path is ""). -/
def parentOf (p : FsPath) : Option FsPath :=
  if p.isEmpty then none else some p.dropLast

/-- Association-list model of HashMap lookup. -/
def lookupK {α β : Type} [DecidableEq α] (m : List (α × β)) (k : α) : Option β :=
  (m.find? (fun e => e.1 == k)).map (fun e => e.2)

/-- Association-list model of HashMap contains_key. -/
def containsK {α β : Type} [DecidableEq α] (m : List (α × β)) (k : α) : Bool :=
  m.any (fun e => e.1 == k)

/-- Association-list model of HashMap insert: replace the entry in place if
the key is present, append otherwise. -/
def insertKV {α β : Type} [DecidableEq α] (m : List (α × β)) (k : α) (v : β) :
    List (α × β) :=
  if containsK m k then m.map (fun e => if e.1 == k then (k, v) else e)
  else m ++ [(k, v)]

/-- Association-list model of HashMap remove. -/
def eraseK {α β : Type} [DecidableEq α] (m : List (α × β)) (k : α) : List (α × β) :=
  m.filter (fun e => !(e.1 == k))

/-- The notify crate event kinds consulted by the iOS handler. -/
inductive CreateKind
  | Any
  | File
  | Folder
  | Other
deriving DecidableEq

inductive DataChange
  | Any
  | Size
  | Content
  | Other
deriving DecidableEq

inductive MetadataKind
  | Any
  | AccessTime
  | WriteTime
  | Permissions
  | Ownership
  | Extended
  | Other
deriving DecidableEq

inductive RenameMode
  | Any
  | To
  | From
  | Both
  | Other
deriving DecidableEq

inductive ModifyKind
  | Any
  | Data (c : DataChange)
  | Metadata (m : MetadataKind)
  | Name (r : RenameMode)
  | Other
deriving DecidableEq

inductive EventKind
  | Any
  | Access
  | Create (c : CreateKind)
  | Modify (m : ModifyKind)
  | Remove
  | Other
deriving DecidableEq

/-- A raw watcher event: kind plus non-empty path sequence (only index 0 is
consulted by the handler). -/
structure Event where
  kind : EventKind
  paths : List FsPath
deriving DecidableEq

/-- LocationManagerError variants distinguished by the handler. -/
inductive LocationManagerError
  | FilePathNotFound
  | FileIo (p : FsPath)
  | Db (n : Nat)
  | Other (n : Nat)
deriving DecidableEq

/-- Filesystem metadata as consulted by the handler. -/
structure Metadata where
  inode : INode
  is_dir : Bool
deriving DecidableEq

/-- A std::io::Error, abstracted to whether its kind is NotFound. -/
structure IoErr where
  not_found : Bool
deriving DecidableEq

/-- The file_path DB record fields the handler consults. -/
structure FilePathRecord where
  name : Option String
deriving DecidableEq

/-- Modelled from the spec: the external environment of one handler call —
the filesystem, the library bridge operations (section 6 of the spec) and
the database, as pure oracles. find_unique_pre and find_unique_post are the
two successive find_unique calls of the folder-rename handler (before and
after its name update). osstr_to_str models OsStr::to_str. -/
structure Env where
  metadata : FsPath → Except IoErr Metadata
  extract_location_path : Except LocationManagerError FsPath
  check_file_path_exists : FsPath → Bool → Except LocationManagerError Bool
  extract_inode_from_path : FsPath → Except LocationManagerError INode
  create_dir : FsPath → Metadata → Except LocationManagerError Unit
  create_file : FsPath → Metadata → Except LocationManagerError Unit
  update_file : FsPath → Except LocationManagerError Unit
  rename : FsPath → FsPath → Metadata → Except LocationManagerError Unit
  remove : FsPath → Except LocationManagerError Unit
  find_unique_pre : INode → Except LocationManagerError (Option FilePathRecord)
  find_unique_post : INode → Except LocationManagerError (Option FilePathRecord)
  osstr_to_str : Component → Option String

/-- The in-memory state of IosEventHandler (the two scratch buffers are
omitted: both are cleared before every use, so they carry no state across
calls). -/
structure HandlerState where
  files_to_update : List (FsPath × Instant)
  reincident_to_update_files : List (FsPath × Instant)
  last_events_eviction_check : Instant
  latest_created_dir : Option FsPath
  old_paths_map : List (INode × (Instant × FsPath))
  new_paths_map : List (INode × (Instant × FsPath))
  to_recalculate_size : List (FsPath × Instant)
  rename_event_queue : List (FsPath × Instant)
deriving DecidableEq

/-- IosEventHandler::new. -/
def initState (now : Instant) : HandlerState :=
  { files_to_update := []
    reincident_to_update_files := []
    last_events_eviction_check := now
    latest_created_dir := none
    old_paths_map := []
    new_paths_map := []
    to_recalculate_size := []
    rename_event_queue := [] }

/-- Outcome of one handler call: Ok, a propagated error, or a panic from an
unwrap in the source. -/
inductive EventOutcome
  | ok
  | err (e : LocationManagerError)
  | panicked
deriving DecidableEq

/-- The file_path name update the folder-rename handler issued, if any. -/
structure FolderRenameEffect where
  updated : Option (INode × Option String)
deriving DecidableEq

/-- IosEventHandler::handle_folder_rename_event. The handler reads (never
mutates) the in-memory maps: rename_event_queue is only inspected via
iter().nth(0). Both find_unique results and the two filename unwraps are
translated faithfully, with unwrap on none producing a panic outcome. -/
def handle_folder_rename_event (env : Env) (s : HandlerState) (path : FsPath) :
    FolderRenameEffect × EventOutcome :=
  match env.extract_inode_from_path path with
  | .error .FilePathNotFound => (⟨none⟩, .ok)
  | .error e => (⟨none⟩, .err e)
  | .ok inode =>
    match env.find_unique_pre inode with
    | .error e => (⟨none⟩, .err e)
    | .ok none => (⟨none⟩, .panicked)
    | .ok (some _pre) =>
      match s.rename_event_queue.head? with
      | some (key, _) =>
        match key.getLast? with
        | none => (⟨none⟩, .panicked)
        | some comp =>
          match env.osstr_to_str comp with
          | none => (⟨none⟩, .panicked)
          | some name =>
            match env.find_unique_post inode with
            | .error e => (⟨some (inode, some name)⟩, .err e)
            | .ok none => (⟨some (inode, some name)⟩, .panicked)
            | .ok (some _post) => (⟨some (inode, some name)⟩, .ok)
      | none =>
        match env.find_unique_post inode with
        | .error e => (⟨none⟩, .err e)
        | .ok none => (⟨none⟩, .panicked)
        | .ok (some _post) => (⟨none⟩, .ok)

/-- IosEventHandler::handle_single_rename_event. -/
def handle_single_rename_event (env : Env) (now : Instant) (s : HandlerState)
    (path : FsPath) : HandlerState × EventOutcome :=
  match env.metadata path with
  | .ok meta =>
    match env.extract_location_path with
    | .error e => (s, .err e)
    | .ok _locPath =>
      match env.check_file_path_exists path meta.is_dir with
      | .error e => (s, .err e)
      | .ok existsInDb =>
        if !existsInDb then
          match lookupK s.old_paths_map meta.inode with
          | some (_, old_path) =>
            let s1 := { s with old_paths_map := eraseK s.old_paths_map meta.inode }
            match env.rename path old_path meta with
            | .error e => (s1, .err e)
            | .ok _ => (s1, .ok)
          | none =>
            ({ s with new_paths_map := insertKV s.new_paths_map meta.inode (now, path) }, .ok)
        else (s, .ok)
  | .error io_e =>
    if io_e.not_found then
      match env.extract_inode_from_path path with
      | .error .FilePathNotFound => (s, .ok)
      | .error e => (s, .err e)
      | .ok inode =>
        match lookupK s.new_paths_map inode with
        | some (_, new_path) =>
          let s1 := { s with new_paths_map := eraseK s.new_paths_map inode }
          match env.metadata new_path with
          | .error _ => (s1, .err (.FileIo new_path))
          | .ok meta2 =>
            match env.rename new_path path meta2 with
            | .error e => (s1, .err e)
            | .ok _ => (s1, .ok)
        | none =>
          ({ s with old_paths_map := insertKV s.old_paths_map inode (now, path) }, .ok)
    else (s, .err (.FileIo path))

/-- IosEventHandler::handle_event, with the match arms in source order.
In the source the wildcard arm (ios.rs:122) precedes both the
Create(File) / Modify(Data(Content)) / Modify(Metadata(WriteTime or
Extended)) arm (ios.rs:127) and the Modify(Metadata(Any)) delete arm
(ios.rs:152), so those two arms are unreachable: every kind other than
Create(Folder) and Modify(Name(Any)) is routed to
handle_single_rename_event. -/
def handle_event (env : Env) (now : Instant) (s : HandlerState) (ev : Event) :
    HandlerState × EventOutcome :=
  let path0 := ev.paths.headD []
  match ev.kind with
  | .Create .Folder =>
    let s1 := { s with rename_event_queue := insertKV s.rename_event_queue path0 now }
    match env.metadata path0 with
    | .error _ => (s1, .err (.FileIo path0))
    | .ok meta =>
      match env.create_dir path0 meta with
      | .error e => (s1, .err e)
      | .ok _ => ({ s1 with latest_created_dir := some path0 }, .ok)
  | .Modify (.Name .Any) =>
    match parentOf path0 with
    | some par =>
      if par ≠ [] then (s, (handle_folder_rename_event env s path0).2)
      else (s, .ok)
    | none => (s, .ok)
  | _ => handle_single_rename_event env now s path0

/-- The body of the unreachable update arm (ios.rs:127-149), as written in
the source: refresh files_to_update with now, and when the path was already
pending, keep the previous timestamp in reincident_to_update_files unless
one is already there. -/
def update_arm (now : Instant) (s : HandlerState) (path : FsPath) : HandlerState :=
  if containsK s.files_to_update path then
    match lookupK s.files_to_update path with
    | some old_instant =>
      { s with
        files_to_update := insertKV s.files_to_update path now
        reincident_to_update_files :=
          if containsK s.reincident_to_update_files path then
            s.reincident_to_update_files
          else insertKV s.reincident_to_update_files path old_instant }
    | none => { s with files_to_update := insertKV s.files_to_update path now }
  else { s with files_to_update := insertKV s.files_to_update path now }

/-- Insert the parent of a path into to_recalculate_size, guarded exactly as
in the source: only when the parent exists and differs from Path::new(""). -/
def recalcParent (now : Instant) (p : FsPath) (s : HandlerState) : HandlerState :=
  match parentOf p with
  | some par =>
    if par ≠ [] then
      { s with to_recalculate_size := insertKV s.to_recalculate_size par now }
    else s
  | none => s

/-- Pass 1 of handle_to_update_eviction over the drained files_to_update
entries. The caller has already emptied files_to_update (drain); kept
entries are re-extended on normal completion. An update_file error aborts
the pass: the remaining drained entries and the kept buffer are dropped,
exactly as dropping the Rust Drain iterator does. -/
def updateEvictPass1 (env : Env) (now : Instant) :
    List (FsPath × Instant) → List (FsPath × Instant) → HandlerState →
    HandlerState × Option LocationManagerError
  | [], kept, s => ({ s with files_to_update := s.files_to_update ++ kept }, none)
  | (p, t) :: rest, kept, s =>
    if now - t < HUNDRED_MILLIS * 5 then updateEvictPass1 env now rest (kept ++ [(p, t)]) s
    else
      let s1 := recalcParent now p s
      let s2 := { s1 with
        reincident_to_update_files := eraseK s1.reincident_to_update_files p }
      match env.update_file p with
      | .error e => (s2, some e)
      | .ok _ => updateEvictPass1 env now rest kept s2

/-- Pass 2 of handle_to_update_eviction over the drained
reincident_to_update_files entries. -/
def updateEvictPass2 (env : Env) (now : Instant) :
    List (FsPath × Instant) → List (FsPath × Instant) → HandlerState →
    HandlerState × Option LocationManagerError
  | [], kept, s =>
    ({ s with reincident_to_update_files := s.reincident_to_update_files ++ kept }, none)
  | (p, t) :: rest, kept, s =>
    if now - t < ONE_SECOND * 10 then updateEvictPass2 env now rest (kept ++ [(p, t)]) s
    else
      let s1 := recalcParent now p s
      let s2 := { s1 with files_to_update := eraseK s1.files_to_update p }
      match env.update_file p with
      | .error e => (s2, some e)
      | .ok _ => updateEvictPass2 env now rest kept s2

/-- IosEventHandler::handle_to_update_eviction. -/
def handle_to_update_eviction (env : Env) (now : Instant) (s : HandlerState) :
    HandlerState × Option LocationManagerError :=
  let entries := s.files_to_update
  match updateEvictPass1 env now entries [] { s with files_to_update := [] } with
  | (s1, some e) => (s1, some e)
  | (s1, none) =>
    let rents := s1.reincident_to_update_files
    updateEvictPass2 env now rents [] { s1 with reincident_to_update_files := [] }

/-- Loop of handle_rename_create_eviction over the drained new_paths_map. -/
def renameCreatePass (env : Env) (now : Instant) :
    List (INode × (Instant × FsPath)) → List (INode × (Instant × FsPath)) →
    HandlerState → HandlerState × Option LocationManagerError
  | [], kept, s => ({ s with new_paths_map := s.new_paths_map ++ kept }, none)
  | (i, (t, p)) :: rest, kept, s =>
    if now - t > HUNDRED_MILLIS then
      if !containsK s.files_to_update p then
        match env.metadata p with
        | .error _ => (s, some (.FileIo p))
        | .ok meta =>
          if meta.is_dir then
            match env.create_dir p meta with
            | .error e => (s, some e)
            | .ok _ => renameCreatePass env now rest kept s
          else
            let s1 := recalcParent now p s
            match env.create_file p meta with
            | .error e => (s1, some e)
            | .ok _ => renameCreatePass env now rest kept s1
      else renameCreatePass env now rest kept s
    else renameCreatePass env now rest (kept ++ [(i, (t, p))]) s

/-- IosEventHandler::handle_rename_create_eviction. -/
def handle_rename_create_eviction (env : Env) (now : Instant) (s : HandlerState) :
    HandlerState × Option LocationManagerError :=
  renameCreatePass env now s.new_paths_map [] { s with new_paths_map := [] }

/-- Loop of handle_rename_remove_eviction over the drained old_paths_map. -/
def renameRemovePass (env : Env) (now : Instant) :
    List (INode × (Instant × FsPath)) → List (INode × (Instant × FsPath)) →
    HandlerState → HandlerState × Option LocationManagerError
  | [], kept, s => ({ s with old_paths_map := s.old_paths_map ++ kept }, none)
  | (i, (t, p)) :: rest, kept, s =>
    if now - t > HUNDRED_MILLIS then
      let s1 := recalcParent now p s
      match env.remove p with
      | .error e => (s1, some e)
      | .ok _ => renameRemovePass env now rest kept s1
    else renameRemovePass env now rest (kept ++ [(i, (t, p))]) s

/-- IosEventHandler::handle_rename_remove_eviction. -/
def handle_rename_remove_eviction (env : Env) (now : Instant) (s : HandlerState) :
    HandlerState × Option LocationManagerError :=
  renameRemovePass env now s.old_paths_map [] { s with old_paths_map := [] }

/-- IosEventHandler::tick: run the sub-passes when the throttle window has
elapsed; each sub-pass's error is logged and swallowed.
recalculate_directories_size (external, spec 4.5) drains to_recalculate_size. -/
def tick (env : Env) (now : Instant) (s : HandlerState) : HandlerState :=
  if now - s.last_events_eviction_check > HUNDRED_MILLIS then
    let s1 := (handle_to_update_eviction env now s).1
    let s2 := (handle_rename_create_eviction env now s1).1
    let s3 := (handle_rename_remove_eviction env now s2).1
    let s4 :=
      if s3.to_recalculate_size.isEmpty then s3
      else { s3 with to_recalculate_size := [] }
    { s4 with last_events_eviction_check := now }
  else s

/-- States reachable from the initial handler state via handle_event and
tick, under arbitrary environments, times and events. -/
inductive Reachable : HandlerState → Prop
  | init (now : Instant) : Reachable (initState now)
  | stepEvent (env : Env) (now : Instant) (ev : Event) (s : HandlerState) :
      Reachable s → Reachable (handle_event env now s ev).1
  | stepTick (env : Env) (now : Instant) (s : HandlerState) :
      Reachable s → Reachable (tick env now s)

end Watcher

namespace Crypto

/-- A concrete enabled keyslot used in witnesses and counterexamples. -/
def exSlot1 : Keyslot001 :=
  { enabled := true
    hashing_algorithm := .Argon2id .Standard
    salt := ⟨1⟩
    content_salt := ⟨1⟩
    master_key := ⟨1⟩
    nonce := ⟨1⟩ }

/-- A second concrete enabled keyslot, distinguishable by its content salt. -/
def exSlot2 : Keyslot001 :=
  { enabled := true
    hashing_algorithm := .Argon2id .Standard
    salt := ⟨2⟩
    content_salt := ⟨2⟩
    master_key := ⟨2⟩
    nonce := ⟨2⟩ }

/-- A hash oracle that fails on the first slot's content salt and succeeds
on the second's. -/
def cexHash : HashOracle :=
  fun _ _ cs => if cs = (⟨2⟩ : Salt) then .ok ⟨7⟩ else .error ()

/-- A decrypt oracle under which the second slot decrypts with the hashed
key produced for it, and nothing else decrypts. -/
def cexDec : DecOracle :=
  fun k v => if k = (⟨7⟩ : Key) ∧ v.content_salt = (⟨2⟩ : Salt) then some ⟨42⟩ else none

/-- A concrete header with two enabled keyslots. -/
def cexHdr : FileHeader001 :=
  { aad := ⟨0⟩
    algorithm := .XChaCha20Poly1305
    nonce := ⟨0⟩
    keyslots := ⟨[exSlot1, exSlot2]⟩
    objects := [] }

/-- The same header holding only the second keyslot. -/
def cexHdrTail : FileHeader001 :=
  { aad := ⟨0⟩
    algorithm := .XChaCha20Poly1305
    nonce := ⟨0⟩
    keyslots := ⟨[exSlot2]⟩
    objects := [] }

/-- Constant entropy stream for padding slots in witnesses. -/
def exEntropy : Nat → SlotEntropy := fun _ => ⟨⟨9⟩, ⟨9⟩, ⟨9⟩, ⟨9⟩⟩

/-- A slot-construction oracle that always fails, for the witness of the
add_keyslot claim. -/
def exFailNewSlot : NewSlotOracle := fun _ _ _ _ _ => .error (.Other 0)

end Crypto

namespace Watcher

/-- A concrete environment in which every filesystem and library-bridge call
succeeds: every path exists as a non-directory with inode 42 and is already
tracked in the DB. -/
def benignEnv : Env :=
  { metadata := fun _ => .ok ⟨42, false⟩
    extract_location_path := .ok [0]
    check_file_path_exists := fun _ _ => .ok true
    extract_inode_from_path := fun _ => .ok 42
    create_dir := fun _ _ => .ok ()
    create_file := fun _ _ => .ok ()
    update_file := fun _ => .ok ()
    rename := fun _ _ _ => .ok ()
    remove := fun _ => .ok ()
    find_unique_pre := fun _ => .ok (some ⟨some "old"⟩)
    find_unique_post := fun _ => .ok (some ⟨some "x"⟩)
    osstr_to_str := fun _ => some "x" }

/-- benignEnv, except that the tracked inode has no file_path DB record. -/
def envDbNone : Env := { benignEnv with find_unique_pre := fun _ => .ok none }

/-- benignEnv, except that OsStr-to-str conversion fails. -/
def envNoStr : Env := { benignEnv with osstr_to_str := fun _ => none }

/-- benignEnv, except that fs::metadata fails with a non-NotFound error. -/
def envErrMeta : Env := { benignEnv with metadata := fun _ => .error ⟨false⟩ }

/-- A handler state whose rename_event_queue holds one pending entry. -/
def sQueued : HandlerState :=
  { initState 0 with rename_event_queue := [([3, 7], 5)] }

/-- A handler state whose queued rename path is empty (no filename). -/
def sEmptyKey : HandlerState :=
  { initState 0 with rename_event_queue := [([], 5)] }

end Watcher

end Spacedrive

namespace Spacedrive

namespace Crypto

theorem tryPasswordSlots_abort (hash : HashOracle) (dec : DecOracle) (pw : Password)
    (post : List Keyslot001) (v : Keyslot001)
    (hv : hash v.hashing_algorithm pw v.content_salt = .error ()) :
    ∀ pre : List Keyslot001,
      (∀ u ∈ pre, ∃ k, hash u.hashing_algorithm pw u.content_salt = .ok k ∧ dec k u = none) →
      tryPasswordSlots hash dec pw (pre ++ v :: post) = .error .PasswordHash
  | [], _ => by
    simp only [List.nil_append, tryPasswordSlots, hv]
  | u :: pre, hpre => by
    obtain ⟨k, hk, hdec⟩ := hpre u (by simp)
    have ih := tryPasswordSlots_abort hash dec pw post v hv pre
      (fun u hu => hpre u (by simp [hu]))
    simp only [List.cons_append, tryPasswordSlots, hk, hdec]
    exact ih

/-- C2 counterexample: with two keyslots where the KDF fails on the first
slot while the second slot's hash and decrypt both succeed,
decrypt_master_key_with_password returns the PasswordHash error immediately
instead of continuing to the second slot (which alone recovers the key). -/
theorem c2_password_hash_fatal_counterexample :
    decrypt_master_key_with_password cexHash cexDec cexHdr [] = .error .PasswordHash ∧
    decrypt_master_key_with_password cexHash cexDec cexHdrTail [] = .ok ⟨42⟩ := by
  constructor <;> rfl

/-- C2 amended: if decrypt_master_key_with_password reaches a keyslot whose
password hashing fails (every earlier slot hashed fine but failed to
decrypt), it returns the PasswordHash error at once; the remaining keyslots
are not tried. -/
theorem c2_password_hash_aborts (hash : HashOracle) (dec : DecOracle)
    (h : FileHeader001) (pw : Password) (pre post : List Keyslot001) (v : Keyslot001)
    (hslots : h.keyslots.slots = pre ++ v :: post)
    (hpre : ∀ u ∈ pre, ∃ k, hash u.hashing_algorithm pw u.content_salt = .ok k ∧ dec k u = none)
    (hv : hash v.hashing_algorithm pw v.content_salt = .error ()) :
    decrypt_master_key_with_password hash dec h pw = .error .PasswordHash := by
  unfold decrypt_master_key_with_password
  rw [hslots, if_neg (by simp)]
  exact tryPasswordSlots_abort hash dec pw post v hv pre hpre

/-- Witness for the amended C2 at the concrete two-slot header. -/
theorem c2_password_hash_aborts_witness :
    decrypt_master_key_with_password cexHash cexDec cexHdr [] = .error .PasswordHash :=
  c2_password_hash_aborts cexHash cexDec cexHdr [] [] [exSlot2] exSlot1 rfl
    (by intro u hu; cases hu) rfl

/-- C4: for any keyslot area within the limit whose slots are all enabled,
decoding the encoding recovers exactly the original slots in order, with
the disabled padding stripped. -/
theorem c4_keyslot_area_roundtrip (entropy : Nat → SlotEntropy) (a : KeyslotArea001)
    (hlen : a.slots.length ≤ KEYSLOT_LIMIT)
    (hen : ∀ k ∈ a.slots, k.enabled = true) :
    ∃ wire, KeyslotArea001.encode entropy a = .ok wire ∧
      KeyslotArea001.decode wire = .ok a := by
  have hlen2 : a.slots.length ≤ 2 := by simpa [KEYSLOT_LIMIT] using hlen
  refine ⟨a.slots ++ (List.range (KEYSLOT_LIMIT - a.slots.length)).map
    (fun i => Keyslot001.disabled (entropy i)), ?_, ?_⟩
  · unfold KeyslotArea001.encode
    rw [if_neg (not_lt.mpr hlen)]
  · unfold KeyslotArea001.decode KeyslotArea001.tryFrom
    have hwlen : (a.slots ++ (List.range (KEYSLOT_LIMIT - a.slots.length)).map
        (fun i => Keyslot001.disabled (entropy i))).length = KEYSLOT_LIMIT := by
      simp only [List.length_append, List.length_map, List.length_range, KEYSLOT_LIMIT]
      omega
    rw [List.take_of_length_le (le_of_eq hwlen), List.filter_append]
    have hfa : a.slots.filter (fun k => k.enabled) = a.slots :=
      List.filter_eq_self.mpr (fun k hk => by simp [hen k hk])
    have hfb : ((List.range (KEYSLOT_LIMIT - a.slots.length)).map
        (fun i => Keyslot001.disabled (entropy i))).filter (fun k => k.enabled) = [] := by
      apply List.filter_eq_nil_iff.mpr
      intro k hk
      obtain ⟨i, _, rfl⟩ := List.mem_map.mp hk
      simp [Keyslot001.disabled]
    rw [hfa, hfb, List.append_nil, if_neg (not_lt.mpr hlen)]

/-- Witness for C4 at a one-slot area. -/
theorem c4_keyslot_area_roundtrip_witness :
    ∃ wire, KeyslotArea001.encode exEntropy ⟨[exSlot1]⟩ = .ok wire ∧
      KeyslotArea001.decode wire = .ok ⟨[exSlot1]⟩ :=
  c4_keyslot_area_roundtrip exEntropy ⟨[exSlot1]⟩ (by decide)
    (by intro k hk; simp only [List.mem_singleton] at hk; subst hk; decide)

theorem sum_map_const_length (ser : Keyslot001 → List Nat) (c : Nat)
    (hc : ∀ k, (ser k).length = c) :
    ∀ w : List Keyslot001, (w.map (fun k => (ser k).length)).sum = w.length * c
  | [] => by simp
  | k :: w => by
    simp [sum_map_const_length ser c hc w, hc k, Nat.succ_mul, Nat.add_comm]

/-- C5: a one-slot area and a two-slot area both encode to exactly
KEYSLOT_LIMIT wire slots — real entries first, disabled padding after — so
under any fixed-size per-slot serialization the encoded byte length of the
keyslot area is the same. -/
theorem c5_keyslot_area_constant_size (e1 e2 : Nat → SlotEntropy)
    (a1 a2 : KeyslotArea001) (h1 : a1.slots.length = 1) (h2 : a2.slots.length = 2)
    (ser : Keyslot001 → List Nat)
    (hser : ∀ k1 k2, (ser k1).length = (ser k2).length) :
    ∃ w1 w2,
      KeyslotArea001.encode e1 a1 = .ok w1 ∧ KeyslotArea001.encode e2 a2 = .ok w2 ∧
      w1 = a1.slots ++ [Keyslot001.disabled (e1 0)] ∧
      w2 = a2.slots ∧
      w1.length = KEYSLOT_LIMIT ∧ w2.length = KEYSLOT_LIMIT ∧
      (w1.map (fun k => (ser k).length)).sum = (w2.map (fun k => (ser k).length)).sum := by
  refine ⟨a1.slots ++ [Keyslot001.disabled (e1 0)], a2.slots, ?_, ?_, rfl, rfl, ?_, ?_, ?_⟩
  · unfold KeyslotArea001.encode
    rw [if_neg (by rw [h1]; simp [KEYSLOT_LIMIT])]
    rw [h1]
    rfl
  · unfold KeyslotArea001.encode
    rw [if_neg (by rw [h2]; simp [KEYSLOT_LIMIT])]
    rw [h2]
    simp [KEYSLOT_LIMIT]
  · simp [h1, KEYSLOT_LIMIT]
  · simp [h2, KEYSLOT_LIMIT]
  · set c := (ser (Keyslot001.disabled (e1 0))).length with hcdef
    have hc : ∀ k, (ser k).length = c := fun k => hser k (Keyslot001.disabled (e1 0))
    rw [sum_map_const_length ser c hc, sum_map_const_length ser c hc]
    simp [h1, h2]

/-- Witness for C5 at concrete one-slot and two-slot areas with a
one-byte-per-slot serializer. -/
theorem c5_keyslot_area_constant_size_witness :
    ∃ w1 w2,
      KeyslotArea001.encode exEntropy ⟨[exSlot1]⟩ = .ok w1 ∧
      KeyslotArea001.encode exEntropy ⟨[exSlot1, exSlot2]⟩ = .ok w2 ∧
      w1 = [exSlot1] ++ [Keyslot001.disabled (exEntropy 0)] ∧
      w2 = [exSlot1, exSlot2] ∧
      w1.length = KEYSLOT_LIMIT ∧ w2.length = KEYSLOT_LIMIT ∧
      (w1.map (fun k => ((fun _ => [0]) k : List Nat).length)).sum =
        (w2.map (fun k => ((fun _ => [0]) k : List Nat).length)).sum :=
  c5_keyslot_area_constant_size exEntropy exEntropy ⟨[exSlot1]⟩ ⟨[exSlot1, exSlot2]⟩
    rfl rfl (fun _ => [0]) (fun _ _ => rfl)

theorem tryAllKeys_findSome (dec : DecOracle) (slots : List Keyslot001) :
    ∀ keys : List Key,
      tryAllKeys dec slots keys =
        match (keyPairs keys slots).findSome? (fun p => dec p.1 p.2) with
        | some key => Except.ok key
        | none => Except.error Error.IncorrectPassword
  | [] => by simp [tryAllKeys, keyPairs]
  | k :: ks => by
    have hpairs : keyPairs (k :: ks) slots =
        slots.map (fun s => (k, s)) ++ keyPairs ks slots := by
      simp [keyPairs]
    have hmap : (slots.map (fun s => (k, s))).findSome? (fun p => dec p.1 p.2) =
        tryKeySlots dec k slots := by
      rw [List.findSome?_map]
      rfl
    rw [hpairs]
    cases htk : tryKeySlots dec k slots with
    | some key =>
      simp only [tryAllKeys, htk, List.findSome?_append, hmap, Option.or]
    | none =>
      simp only [tryAllKeys, htk, List.findSome?_append, hmap, Option.none_or]
      exact tryAllKeys_findSome dec slots ks

/-- C6: decrypt_master_key fails with NoKeyslots on a header with no
keyslots, and otherwise tries every (hashed key, keyslot) pair in key-major
order (outer loop over the supplied keys, inner over the keyslots),
returning the first successful decrypt and IncorrectPassword only after all
pairs failed — exactly the spec-side characterization
decrypt_master_key_spec. -/
theorem c6_decrypt_master_key_correct (dec : DecOracle) (h : FileHeader001)
    (keys : List Key) :
    decrypt_master_key dec h keys = decrypt_master_key_spec dec h keys := by
  unfold decrypt_master_key decrypt_master_key_spec
  cases hemp : h.keyslots.slots.isEmpty with
  | true => simp
  | false =>
    simp only [Bool.false_eq_true, if_false]
    exact tryAllKeys_findSome dec h.keyslots.slots keys

/-- C7: adding a keyslot to a header already holding KEYSLOT_LIMIT slots
fails with TooManyKeyslots and leaves the header unchanged; more generally
every failing add_keyslot call leaves the header unchanged. -/
theorem c7_add_keyslot_limit (newSlot : NewSlotOracle) (h : FileHeader001)
    (ha : HashingAlgorithm) (cs : Salt) (hk mk : Key)
    (hfull : h.keyslots.slots.length = KEYSLOT_LIMIT) :
    add_keyslot newSlot h ha cs hk mk = (h, some .TooManyKeyslots) ∧
    ∀ (ns2 : NewSlotOracle) (h2 : FileHeader001) (ha2 : HashingAlgorithm)
      (cs2 : Salt) (hk2 mk2 : Key) (h2' : FileHeader001) (e : Error),
      add_keyslot ns2 h2 ha2 cs2 hk2 mk2 = (h2', some e) → h2' = h2 := by
  constructor
  · unfold add_keyslot
    rw [hfull]
    rfl
  · intro ns2 h2 ha2 cs2 hk2 mk2 h2' e hcall
    unfold add_keyslot at hcall
    split at hcall
    · exact (Prod.mk.injEq .. ▸ hcall).1.symm ▸ rfl
    · split at hcall
      · exact ((Prod.mk.injEq .. ▸ hcall).1).symm
      · exact absurd (Prod.mk.injEq .. ▸ hcall).2 (by simp)

/-- Witness for C7 at the concrete two-slot header. -/
theorem c7_add_keyslot_limit_witness :
    add_keyslot exFailNewSlot cexHdr (.Argon2id .Standard) ⟨3⟩ ⟨3⟩ ⟨3⟩ =
      (cexHdr, some .TooManyKeyslots) :=
  (c7_add_keyslot_limit exFailNewSlot cexHdr (.Argon2id .Standard) ⟨3⟩ ⟨3⟩ ⟨3⟩ rfl).1

end Crypto

namespace Watcher

/-- C1: in the source the wildcard arm (ios.rs:122) precedes the
Create(File) / Modify(Data(Content)) / Modify(Metadata(WriteTime|Extended))
arm (ios.rs:127), so a Create(File) event (and likewise a
Modify(Data(Content)) event) is routed to handle_single_rename_event and
files_to_update is never written, while the arm's own body (update_arm,
matching the spec's routing table) would have inserted the path with now. -/
theorem c1_update_arm_unreachable :
    handle_event benignEnv 0 (initState 0) ⟨.Create .File, [[1, 2]]⟩ =
      (initState 0, .ok) ∧
    handle_event benignEnv 0 (initState 0) ⟨.Create .File, [[1, 2]]⟩ =
      handle_single_rename_event benignEnv 0 (initState 0) [1, 2] ∧
    handle_event benignEnv 0 (initState 0) ⟨.Modify (.Data .Content), [[1, 2]]⟩ =
      handle_single_rename_event benignEnv 0 (initState 0) [1, 2] ∧
    (handle_event benignEnv 0 (initState 0) ⟨.Create .File, [[1, 2]]⟩).1.files_to_update
      = [] ∧
    (update_arm 0 (initState 0) [1, 2]).files_to_update = [([1, 2], 0)] := by
  refine ⟨rfl, rfl, rfl, rfl, rfl⟩

/-- C10: handle_folder_rename_event panics instead of returning an error
when the DB find_unique lookup yields no record for the tracked inode, when
the queued rename path has no filename component, and when the filename is
not valid UTF-8. -/
theorem c10_folder_rename_unwrap_failures :
    (handle_folder_rename_event envDbNone sQueued [5, 6]).2 = .panicked ∧
    (handle_folder_rename_event benignEnv sEmptyKey [5, 6]).2 = .panicked ∧
    (handle_folder_rename_event envNoStr sQueued [5, 6]).2 = .panicked := by
  refine ⟨rfl, rfl, rfl⟩

/-- C3 counterexample: on a folder-rename event for a tracked inode with a
non-empty rename_event_queue, the queue entry is NOT removed — the handler
only reads it via iter().nth(0) — so after the event the queue still holds
the entry, contradicting the claimed pop. -/
theorem c3_no_pop_counterexample :
    (handle_event benignEnv 9 sQueued ⟨.Modify (.Name .Any), [[5, 6]]⟩).1.rename_event_queue
      = [([3, 7], 5)] ∧
    ([([3, 7], 5)] : List (FsPath × Instant)) ≠ eraseK [([3, 7], 5)] [3, 7] := by
  exact ⟨rfl, by decide⟩

/-- C3 amended: on a folder-rename event for a DB-tracked inode with a
non-empty rename_event_queue, the handler reads (without removing) the
first entry in the queue's iteration order, sets the DB record's name field
to that entry's filename component, and leaves the in-memory state (the
queue included) unchanged. -/
theorem c3_folder_rename_reads_first_entry (env : Env) (s : HandlerState)
    (path : FsPath) (inode : INode) (rec : FilePathRecord) (key : FsPath)
    (t : Instant) (rest : List (FsPath × Instant)) (comp : Component) (name : String)
    (hi : env.extract_inode_from_path path = .ok inode)
    (hdb : env.find_unique_pre inode = .ok (some rec))
    (hq : s.rename_event_queue = (key, t) :: rest)
    (hlast : key.getLast? = some comp)
    (hstr : env.osstr_to_str comp = some name)
    (now : Instant) (ev : Event) (hkind : ev.kind = .Modify (.Name .Any)) :
    (handle_folder_rename_event env s path).1.updated = some (inode, some name) ∧
    (handle_event env now s ev).1 = s := by
  constructor
  · unfold handle_folder_rename_event
    simp only [hi, hdb, hq, List.head?_cons, hlast, hstr]
    cases env.find_unique_post inode with
    | error e => rfl
    | ok o => cases o <;> rfl
  · simp only [handle_event, hkind]
    cases hpo : parentOf (ev.paths.headD []) with
    | none => rfl
    | some par => split <;> first | rfl | (split <;> rfl)

theorem hsre_preserves_reincident (env : Env) (now : Instant) (s : HandlerState)
    (p : FsPath) :
    (handle_single_rename_event env now s p).1.reincident_to_update_files =
      s.reincident_to_update_files := by
  unfold handle_single_rename_event
  repeat' split
  all_goals rfl

theorem he_preserves_reincident (env : Env) (now : Instant) (s : HandlerState)
    (ev : Event) :
    (handle_event env now s ev).1.reincident_to_update_files =
      s.reincident_to_update_files := by
  unfold handle_event
  dsimp only
  repeat' split
  all_goals first | rfl | apply hsre_preserves_reincident

theorem recalcParent_reincident (now : Instant) (p : FsPath) (s : HandlerState) :
    (recalcParent now p s).reincident_to_update_files = s.reincident_to_update_files := by
  unfold recalcParent
  repeat' split
  all_goals rfl

theorem updateEvictPass1_reincident_nil (env : Env) (now : Instant) :
    ∀ (entries kept : List (FsPath × Instant)) (s : HandlerState),
      s.reincident_to_update_files = [] →
      ((updateEvictPass1 env now entries kept s).1).reincident_to_update_files = []
  | [], kept, s, h => by simpa [updateEvictPass1] using h
  | (p, t) :: rest, kept, s, h => by
    have hrc : (recalcParent now p s).reincident_to_update_files = [] := by
      rw [recalcParent_reincident]; exact h
    have herase :
        eraseK (recalcParent now p s).reincident_to_update_files p = [] := by
      rw [hrc]; rfl
    unfold updateEvictPass1
    split
    · exact updateEvictPass1_reincident_nil env now rest (kept ++ [(p, t)]) s h
    · split
      · simpa using herase
      · exact updateEvictPass1_reincident_nil env now rest kept _ (by simpa using herase)

theorem updateEvictPass2_reincident_nil (env : Env) (now : Instant) (s : HandlerState)
    (h : s.reincident_to_update_files = []) :
    ((updateEvictPass2 env now [] [] s).1).reincident_to_update_files = [] := by
  simpa [updateEvictPass2] using h

theorem updateEvict_reincident_nil (env : Env) (now : Instant) (s : HandlerState)
    (h : s.reincident_to_update_files = []) :
    ((handle_to_update_eviction env now s).1).reincident_to_update_files = [] := by
  unfold handle_to_update_eviction
  dsimp only
  rcases hp1 : updateEvictPass1 env now s.files_to_update []
      { s with files_to_update := [] } with ⟨s1, oe⟩
  have h1 : s1.reincident_to_update_files = [] := by
    have := updateEvictPass1_reincident_nil env now s.files_to_update []
      { s with files_to_update := [] } (by simpa using h)
    rwa [hp1] at this
  cases oe with
  | some e => exact h1
  | none =>
    dsimp only
    rw [h1]
    exact updateEvictPass2_reincident_nil env now _ rfl

theorem renameCreatePass_reincident (env : Env) (now : Instant) :
    ∀ (entries kept : List (INode × (Instant × FsPath))) (s : HandlerState),
      ((renameCreatePass env now entries kept s).1).reincident_to_update_files =
        s.reincident_to_update_files
  | [], kept, s => by simp [renameCreatePass]
  | (i, (t, p)) :: rest, kept, s => by
    unfold renameCreatePass
    dsimp only
    repeat' split
    all_goals first
      | rfl
      | exact recalcParent_reincident now p s
      | (rw [renameCreatePass_reincident env now rest kept s])
      | (rw [renameCreatePass_reincident env now rest (kept ++ [(i, (t, p))]) s])
      | (rw [renameCreatePass_reincident env now rest kept (recalcParent now p s)]
         exact recalcParent_reincident now p s)

theorem renameRemovePass_reincident (env : Env) (now : Instant) :
    ∀ (entries kept : List (INode × (Instant × FsPath))) (s : HandlerState),
      ((renameRemovePass env now entries kept s).1).reincident_to_update_files =
        s.reincident_to_update_files
  | [], kept, s => by simp [renameRemovePass]
  | (i, (t, p)) :: rest, kept, s => by
    unfold renameRemovePass
    dsimp only
    repeat' split
    all_goals first
      | rfl
      | exact recalcParent_reincident now p s
      | (rw [renameRemovePass_reincident env now rest (kept ++ [(i, (t, p))]) s])
      | (rw [renameRemovePass_reincident env now rest kept (recalcParent now p s)]
         exact recalcParent_reincident now p s)

theorem tick_reincident_nil (env : Env) (now : Instant) (s : HandlerState)
    (h : s.reincident_to_update_files = []) :
    (tick env now s).reincident_to_update_files = [] := by
  have h1 : ((handle_to_update_eviction env now s).1).reincident_to_update_files = [] :=
    updateEvict_reincident_nil env now s h
  have h2 : ((handle_rename_create_eviction env now
      (handle_to_update_eviction env now s).1).1).reincident_to_update_files = [] := by
    unfold handle_rename_create_eviction
    rw [renameCreatePass_reincident]
    exact h1
  have h3 : ((handle_rename_remove_eviction env now
      (handle_rename_create_eviction env now
        (handle_to_update_eviction env now s).1).1).1).reincident_to_update_files = [] := by
    unfold handle_rename_remove_eviction
    rw [renameRemovePass_reincident]
    exact h2
  unfold tick
  dsimp only
  split
  · split
    · exact h3
    · exact h3
  · exact h

theorem reachable_reincident_nil : ∀ s : HandlerState, Reachable s →
    s.reincident_to_update_files = [] := by
  intro s h
  induction h with
  | init now => rfl
  | stepEvent env now ev s hr ih => rw [he_preserves_reincident]; exact ih
  | stepTick env now s hr ih => exact tick_reincident_nil env now s ih

/-- C8: in every state reachable from the initial handler state via
handle_event and tick, every path in reincident_to_update_files is also in
files_to_update. (The only insertion into reincident_to_update_files in the
source sits in the unreachable update arm — see C1 — so the map stays empty
and the spec invariant holds in every reachable state.) -/
theorem c8_reincident_in_files (s : HandlerState) (h : Reachable s) :
    s.reincident_to_update_files.all
      (fun e => containsK s.files_to_update e.1) = true := by
  rw [reachable_reincident_nil s h]
  rfl

/-- Witness for C8 at a state reached by one Create(Folder) event. -/
theorem c8_reincident_in_files_witness :
    ((handle_event benignEnv 0 (initState 0) ⟨.Create .Folder, [[1]]⟩).1.reincident_to_update_files.all
      (fun e => containsK
        (handle_event benignEnv 0 (initState 0) ⟨.Create .Folder, [[1]]⟩).1.files_to_update
        e.1)) = true :=
  c8_reincident_in_files _
    (Reachable.stepEvent benignEnv 0 ⟨.Create .Folder, [[1]]⟩ (initState 0)
      (Reachable.init 0))

theorem hsre_error_state (env : Env) (now : Instant) (s : HandlerState) (p : FsPath)
    (s' : HandlerState) (e : LocationManagerError)
    (hc : handle_single_rename_event env now s p = (s', .err e)) :
    s'.files_to_update = s.files_to_update ∧
    s'.reincident_to_update_files = s.reincident_to_update_files ∧
    s'.to_recalculate_size = s.to_recalculate_size ∧
    s'.rename_event_queue = s.rename_event_queue ∧
    s'.latest_created_dir = s.latest_created_dir ∧
    (s' = s ∨
      (∃ meta : Metadata, env.metadata p = .ok meta ∧
        (lookupK s.old_paths_map meta.inode).isSome ∧
        s' = { s with old_paths_map := eraseK s.old_paths_map meta.inode }) ∨
      (∃ inode : INode, env.extract_inode_from_path p = .ok inode ∧
        (lookupK s.new_paths_map inode).isSome ∧
        s' = { s with new_paths_map := eraseK s.new_paths_map inode })) := by
  unfold handle_single_rename_event at hc
  dsimp only at hc
  cases hmeta : env.metadata p with
  | ok meta =>
    rw [hmeta] at hc
    dsimp only at hc
    cases hloc : env.extract_location_path with
    | error e1 =>
      rw [hloc] at hc
      injection hc with hs ho
      subst hs
      exact ⟨rfl, rfl, rfl, rfl, rfl, Or.inl rfl⟩
    | ok lp =>
      rw [hloc] at hc
      dsimp only at hc
      cases hchk : env.check_file_path_exists p meta.is_dir with
      | error e1 =>
        rw [hchk] at hc
        injection hc with hs ho
        subst hs
        exact ⟨rfl, rfl, rfl, rfl, rfl, Or.inl rfl⟩
      | ok exB =>
        rw [hchk] at hc
        dsimp only at hc
        split at hc
        · cases hold : lookupK s.old_paths_map meta.inode with
          | some pr =>
            obtain ⟨inst, op⟩ := pr
            rw [hold] at hc
            dsimp only at hc
            cases hren : env.rename p op meta with
            | error e1 =>
              rw [hren] at hc
              injection hc with hs ho
              subst hs
              refine ⟨rfl, rfl, rfl, rfl, rfl,
                Or.inr (Or.inl ⟨meta, rfl, ?_, rfl⟩)⟩
              rw [hold]
              rfl
            | ok u =>
              rw [hren] at hc
              injection hc with hs ho
              contradiction
          | none =>
            rw [hold] at hc
            injection hc with hs ho
            contradiction
        · injection hc with hs ho
          contradiction
  | error ioe =>
    rw [hmeta] at hc
    dsimp only at hc
    split at hc
    · cases hino : env.extract_inode_from_path p with
      | error err =>
        rw [hino] at hc
        cases err with
        | FilePathNotFound =>
          injection hc with hs ho
          contradiction
        | FileIo pp =>
          injection hc with hs ho
          subst hs
          exact ⟨rfl, rfl, rfl, rfl, rfl, Or.inl rfl⟩
        | Db n =>
          injection hc with hs ho
          subst hs
          exact ⟨rfl, rfl, rfl, rfl, rfl, Or.inl rfl⟩
        | Other n =>
          injection hc with hs ho
          subst hs
          exact ⟨rfl, rfl, rfl, rfl, rfl, Or.inl rfl⟩
      | ok inode =>
        rw [hino] at hc
        dsimp only at hc
        cases hnew : lookupK s.new_paths_map inode with
        | some pr =>
          obtain ⟨inst, np⟩ := pr
          rw [hnew] at hc
          dsimp only at hc
          cases hmeta2 : env.metadata np with
          | error ioe2 =>
            rw [hmeta2] at hc
            injection hc with hs ho
            subst hs
            refine ⟨rfl, rfl, rfl, rfl, rfl,
              Or.inr (Or.inr ⟨inode, rfl, ?_, rfl⟩)⟩
            rw [hnew]
            rfl
          | ok meta2 =>
            rw [hmeta2] at hc
            dsimp only at hc
            cases hren2 : env.rename np p meta2 with
            | error e2 =>
              rw [hren2] at hc
              injection hc with hs ho
              subst hs
              refine ⟨rfl, rfl, rfl, rfl, rfl,
                Or.inr (Or.inr ⟨inode, rfl, ?_, rfl⟩)⟩
              rw [hnew]
              rfl
            | ok u =>
              rw [hren2] at hc
              injection hc with hs ho
              contradiction
        | none =>
          rw [hnew] at hc
          injection hc with hs ho
          contradiction
    · injection hc with hs ho
      subst hs
      exact ⟨rfl, rfl, rfl, rfl, rfl, Or.inl rfl⟩

/-- C9: whenever handle_event returns an error, the post-state is exactly
one the routing table states for that event kind: on a Create(Folder)
error only the stated rename_event_queue enqueue has happened; on a
Modify(Name(Any)) error (and on any benign error) the state is unchanged;
and only for the kinds routed to the rename pairer may additionally the
pairer's stated removal of the matched inode (and nothing else) have
happened, from old_paths_map when the event path resolved to that inode,
or from new_paths_map when the DB lookup of the vanished path returned it.
files_to_update, reincident_to_update_files and to_recalculate_size are
untouched on every error path. -/
theorem c9_error_state_isolation (env : Env) (now : Instant) (s : HandlerState)
    (ev : Event) (s' : HandlerState) (e : LocationManagerError)
    (hc : handle_event env now s ev = (s', .err e)) :
    s'.files_to_update = s.files_to_update ∧
    s'.reincident_to_update_files = s.reincident_to_update_files ∧
    s'.to_recalculate_size = s.to_recalculate_size ∧
    s'.latest_created_dir = s.latest_created_dir ∧
    ((ev.kind = .Create .Folder ∧
        s' = { s with
          rename_event_queue := insertKV s.rename_event_queue (ev.paths.headD []) now }) ∨
      s' = s ∨
      (ev.kind ≠ .Create .Folder ∧ ev.kind ≠ .Modify (.Name .Any) ∧
        ((∃ meta : Metadata,
            env.metadata (ev.paths.headD []) = .ok meta ∧
            (lookupK s.old_paths_map meta.inode).isSome ∧
            s' = { s with old_paths_map := eraseK s.old_paths_map meta.inode }) ∨
          (∃ inode : INode,
            env.extract_inode_from_path (ev.paths.headD []) = .ok inode ∧
            (lookupK s.new_paths_map inode).isSome ∧
            s' = { s with new_paths_map := eraseK s.new_paths_map inode })))) := by
  unfold handle_event at hc
  dsimp only at hc
  split at hc
  · rename_i hkind
    cases hmeta : env.metadata (ev.paths.headD []) with
    | error a =>
      rw [hmeta] at hc
      injection hc with hs ho
      subst hs
      exact ⟨rfl, rfl, rfl, rfl, Or.inl ⟨hkind, rfl⟩⟩
    | ok meta =>
      rw [hmeta] at hc
      dsimp only at hc
      cases hcd : env.create_dir (ev.paths.headD []) meta with
      | error e1 =>
        rw [hcd] at hc
        injection hc with hs ho
        subst hs
        exact ⟨rfl, rfl, rfl, rfl, Or.inl ⟨hkind, rfl⟩⟩
      | ok u =>
        rw [hcd] at hc
        injection hc with hs ho
        contradiction
  · cases hpo : parentOf (ev.paths.headD []) with
    | none =>
      rw [hpo] at hc
      injection hc with hs ho
      contradiction
    | some par =>
      rw [hpo] at hc
      dsimp only at hc
      split at hc
      · injection hc with hs ho
        subst hs
        exact ⟨rfl, rfl, rfl, rfl, Or.inr (Or.inl rfl)⟩
      · injection hc with hs ho
        contradiction
  · rename_i hkc hkm
    obtain ⟨hf, hr, ht, hq, hl, hdisj⟩ :=
      hsre_error_state env now s (ev.paths.headD []) s' e hc
    refine ⟨hf, hr, ht, hl, ?_⟩
    rcases hdisj with hss | hold | hnew
    · exact Or.inr (Or.inl hss)
    · exact Or.inr (Or.inr ⟨hkc, hkm, Or.inl hold⟩)
    · exact Or.inr (Or.inr ⟨hkc, hkm, Or.inr hnew⟩)

/-- Witness for C9 at a concrete failing metadata call on a Remove event. -/
theorem c9_error_state_isolation_witness :
    (initState 0).files_to_update = (initState 0).files_to_update ∧
    (initState 0).reincident_to_update_files = (initState 0).reincident_to_update_files ∧
    (initState 0).to_recalculate_size = (initState 0).to_recalculate_size ∧
    (initState 0).latest_created_dir = (initState 0).latest_created_dir ∧
    (((⟨.Remove, [[1]]⟩ : Event).kind = .Create .Folder ∧
        initState 0 = { initState 0 with
          rename_event_queue := insertKV (initState 0).rename_event_queue ((⟨.Remove, [[1]]⟩ : Event).paths.headD []) 0 }) ∨
      initState 0 = initState 0 ∨
      ((⟨.Remove, [[1]]⟩ : Event).kind ≠ .Create .Folder ∧
        (⟨.Remove, [[1]]⟩ : Event).kind ≠ .Modify (.Name .Any) ∧
        ((∃ meta : Metadata,
            envErrMeta.metadata ((⟨.Remove, [[1]]⟩ : Event).paths.headD []) = .ok meta ∧
            (lookupK (initState 0).old_paths_map meta.inode).isSome ∧
            initState 0 = { initState 0 with
              old_paths_map := eraseK (initState 0).old_paths_map meta.inode }) ∨
          (∃ inode : INode,
            envErrMeta.extract_inode_from_path
              ((⟨.Remove, [[1]]⟩ : Event).paths.headD []) = .ok inode ∧
            (lookupK (initState 0).new_paths_map inode).isSome ∧
            initState 0 = { initState 0 with
              new_paths_map := eraseK (initState 0).new_paths_map inode })))) :=
  c9_error_state_isolation envErrMeta 0 (initState 0) ⟨.Remove, [[1]]⟩
    (initState 0) (.FileIo [1]) rfl

/-- Witness for the amended C3 at the concrete queued state. -/
theorem c3_folder_rename_reads_first_entry_witness :
    (handle_folder_rename_event benignEnv sQueued [5, 6]).1.updated
      = some (42, some "x") ∧
    (handle_event benignEnv 9 sQueued ⟨.Modify (.Name .Any), [[5, 6]]⟩).1 = sQueued :=
  c3_folder_rename_reads_first_entry benignEnv sQueued [5, 6] 42 ⟨some "old"⟩
    [3, 7] 5 [] 7 "x" rfl rfl rfl rfl rfl 9 ⟨.Modify (.Name .Any), [[5, 6]]⟩ rfl

end Watcher

end Spacedrive
